import Mathlib

/-!
Verification of the `gpiodriver` pin adapter of periph-gpioc.

The Go package `gpiodriver` adapts Linux gpiocdev lines to the periph.io
pin interfaces.  We embed the adapter's state and operations shallowly:

* `PinState` models the mutable fields of `pinAdapter` relevant to the
  claims: the `line atomic.Pointer[gpiocdev.Line]` (a line handle is
  identified by a `Nat`) and the cached `info` snapshot.
* External gpiocdev calls (`Chip.RequestLine`, `Line.Reconfigure`,
  `Line.SetValue`, `Line.Value`, `Line.Close`, `Chip.WatchLineInfo`,
  `Chip.UnwatchLineInfo`) are oracles collected in `Env`; their observable
  invocations are recorded in an effect trace (`Effect`).
* Go errors are modelled by the inductive `GoErr`, one constructor per
  `fmt.Errorf`/`errors.Join` site in the source.
* The unbuffered edge channel (`edge: make(chan struct{})`) and the
  `WaitForEdge` timeout logic are modelled separately below.
* The concurrent compare-and-swap open protocol of `initPin` is modelled
  as an interleaving state machine in namespace `GpioDriver.Conc`.
-/

namespace GpioDriver

/-- `gpio.Pull` values used by `pinAdapter.In`; `unknown` stands for any
other integer value of the Go `gpio.Pull` type. -/
inductive Pull
  | pullNoChange
  | float
  | pullDown
  | pullUp
  | unknown (n : Nat)
deriving DecidableEq, Repr

/-- `gpio.Edge` values used by `pinAdapter.In`; `unknown` stands for any
other integer value of the Go `gpio.Edge` type. -/
inductive Edge
  | noEdge
  | risingEdge
  | fallingEdge
  | bothEdges
  | unknown (n : Nat)
deriving DecidableEq, Repr

/-- `pin.Func` labels handled by `pinAdapter.SetFunc`; `other` stands for
any other function string. -/
inductive Func
  | IN
  | IN_HIGH
  | IN_LOW
  | OUT
  | OUT_OC
  | OUT_HIGH
  | OUT_LOW
  | FLOAT
  | other (s : String)
deriving DecidableEq, Repr

/-- gpiocdev line bias options (`WithBiasAsIs`, `WithPullUp`,
`WithPullDown`, `WithBiasDisabled`). -/
inductive LineBias
  | withBiasAsIs
  | withPullUp
  | withPullDown
  | withBiasDisabled
deriving DecidableEq, Repr

/-- gpiocdev line edge options (`WithoutEdges`, `WithRisingEdge`,
`WithFallingEdge`, `WithBothEdges`). -/
inductive LineEdge
  | withoutEdges
  | withRisingEdge
  | withFallingEdge
  | withBothEdges
deriving DecidableEq, Repr

/-- gpiocdev line direction, as stored in `LineInfo.Config.Direction`. -/
inductive LineDirection
  | input
  | output
  | unknownDir
deriving DecidableEq, Repr

/-- gpiocdev line request / reconfigure options as passed by the adapter. -/
inductive ReqOption
  | asInput
  | asOutput (vals : List Int)
  | withBias (b : LineBias)
  | withEdge (e : LineEdge)
  | asPushPull
  | asOpenDrain
  | withEventHandler
deriving DecidableEq, Repr

/-- The slice of `gpiocdev.LineInfo` the claims depend on. -/
structure LineInfo where
  offset : Nat
  direction : LineDirection
deriving DecidableEq, Repr

/-- The mutable state of a `pinAdapter`: the atomic line pointer (`none`
when not opened; a line handle is a `Nat` identity) and the cached
`LineInfo` snapshot. -/
structure PinState where
  line : Option Nat
  info : LineInfo
deriving DecidableEq, Repr

/-- Go error values produced by the adapter, one constructor per error
construction site in the source. -/
inductive GoErr
  | reconfigureErr
  | requestFailed (offset : Nat)
  | watchFailed (offset : Nat)
  | initFailed (e : GoErr)
  | unsupportedPull (p : Pull)
  | unsupportedEdge (e : Edge)
  | unsupportedFunc (f : Func)
  | configureInputFailed
  | reconfigureOutputFailed
  | setValueFailed
  | haltErrors (closeErr unwatchErr : Bool)
  | nilLine
deriving DecidableEq, Repr

/-- Observable invocations of external gpiocdev calls and of the logger. -/
inductive Effect
  | requestLine (opts : List ReqOption)
  | watchLineInfo (offset : Nat)
  | unwatchLineInfo (offset : Nat)
  | closeLine (l : Nat)
  | reconfigure (l : Nat) (opts : List ReqOption)
  | setValue (l : Nat) (v : Int)
  | readValue (l : Nat)
  | logError
  | logWarn
  | logDebug
deriving DecidableEq, Repr

/-- Oracles for the external gpiocdev calls: what each call would return
if made.  `requestLine = none` means `Chip.RequestLine` fails;
`readResult = none` means `Line.Value` fails. -/
structure Env where
  requestLine : Option Nat
  watchOk : Bool
  watchedInfo : LineInfo
  reconfigureOk : Bool
  setValueOk : Bool
  readResult : Option Int
  closeOk : Bool
  unwatchOk : Bool
deriving DecidableEq, Repr

/-- `btoi` from the source. -/
def btoi (b : Bool) : Int := if b then 1 else 0

/-- `itob` from the source: true exactly on the integer 1. -/
def itob (i : Int) : Bool := i == 1

/-- `pinAdapter.initPin`, sequential execution (the compare-and-swap always
succeeds when the pointer was nil; the concurrent race is modelled in
namespace `Conc`).  Returns ((initialized, err), new state, effects). -/
def initPin (env : Env) (options : List ReqOption) (s : PinState) :
    (Bool × Option GoErr) × PinState × List Effect :=
  match s.line with
  | some _ => ((false, none), s, [])
  | none =>
    let offset := s.info.offset
    let opts := options ++ [ReqOption.withEventHandler]
    match env.requestLine with
    | none =>
      ((false, some (GoErr.requestFailed offset)), s,
        [Effect.requestLine opts, Effect.logError])
    | some l =>
      let s1 : PinState := { s with line := some l }
      if env.watchOk then
        ((true, none), { s1 with info := env.watchedInfo },
          [Effect.requestLine opts, Effect.watchLineInfo offset, Effect.logDebug])
      else
        ((false, some (GoErr.watchFailed offset)), s1,
          [Effect.requestLine opts, Effect.watchLineInfo offset])

/-- `pinAdapter.Halt`: close the line and unwatch its info, collecting the
errors with `errors.Join`; no-op on an unopened pin.  Note the source never
stores `nil` back into `p.line`. -/
def Halt (env : Env) (s : PinState) : Option GoErr × PinState × List Effect :=
  match s.line with
  | none => (none, s, [])
  | some l =>
    let res : Option GoErr :=
      if env.closeOk && env.unwatchOk then none
      else some (GoErr.haltErrors (!env.closeOk) (!env.unwatchOk))
    (res, s, [Effect.closeLine l, Effect.unwatchLineInfo s.info.offset])

/-- The `switch pull` translation in `pinAdapter.In`; `none` means the
default branch (unsupported pull error). -/
def pullToBias : Pull → Option LineBias
  | Pull.pullNoChange => some LineBias.withBiasAsIs
  | Pull.pullUp => some LineBias.withPullUp
  | Pull.pullDown => some LineBias.withPullDown
  | Pull.float => some LineBias.withBiasDisabled
  | Pull.unknown _ => none

/-- The `switch edge` translation in `pinAdapter.In`; `none` means the
default branch (unsupported edge error). -/
def edgeToNative : Edge → Option LineEdge
  | Edge.noEdge => some LineEdge.withoutEdges
  | Edge.risingEdge => some LineEdge.withRisingEdge
  | Edge.fallingEdge => some LineEdge.withFallingEdge
  | Edge.bothEdges => some LineEdge.withBothEdges
  | Edge.unknown _ => none

/-- `pinAdapter.In`. -/
def In (env : Env) (pull : Pull) (edge : Edge) (s : PinState) :
    Option GoErr × PinState × List Effect :=
  match pullToBias pull with
  | none => (some (GoErr.unsupportedPull pull), s, [])
  | some cBias =>
    match edgeToNative edge with
    | none => (some (GoErr.unsupportedEdge edge), s, [])
    | some cEdge =>
      let r := initPin env
        [ReqOption.asInput, ReqOption.withBias cBias, ReqOption.withEdge cEdge] s
      match r.1.2 with
      | some e => (some (GoErr.initFailed e), r.2.1, r.2.2)
      | none =>
        if r.1.1 then (none, r.2.1, r.2.2)
        else
          match r.2.1.line with
          | none => (some GoErr.nilLine, r.2.1, r.2.2)
          | some l =>
            let effs := r.2.2 ++
              [Effect.reconfigure l
                [ReqOption.asInput, ReqOption.withBias cBias, ReqOption.withEdge cEdge]]
            if env.reconfigureOk then (none, r.2.1, effs)
            else (some GoErr.configureInputFailed, r.2.1, effs)

/-- `pinAdapter.Out`. -/
def Out (env : Env) (level : Bool) (s : PinState) :
    Option GoErr × PinState × List Effect :=
  let r := initPin env [ReqOption.asOutput [btoi level]] s
  match r.1.2 with
  | some e => (some (GoErr.initFailed e), r.2.1, r.2.2)
  | none =>
    if r.1.1 then (none, r.2.1, r.2.2)
    else
      match r.2.1.line with
      | none => (some GoErr.nilLine, r.2.1, r.2.2)
      | some l =>
        if r.2.1.info.direction ≠ LineDirection.output then
          let effs := r.2.2 ++ [Effect.reconfigure l [ReqOption.asOutput [btoi level]]]
          if env.reconfigureOk then (none, r.2.1, effs)
          else (some GoErr.reconfigureOutputFailed, r.2.1, effs)
        else
          let effs := r.2.2 ++ [Effect.setValue l (btoi level)]
          if env.setValueOk then (none, r.2.1, effs)
          else (some GoErr.setValueFailed, r.2.1, effs)

/-- `pinAdapter.SetFunc`.  Note the source calls `p.initPin()` (with no
options) first and ignores the `initialized` flag, and only then switches
on the function label. -/
def SetFunc (env : Env) (f : Func) (s : PinState) :
    Option GoErr × PinState × List Effect :=
  let r := initPin env [] s
  match r.1.2 with
  | some e => (some e, r.2.1, r.2.2)
  | none =>
    let s1 := r.2.1
    let eff1 := r.2.2 ++ [Effect.logDebug]
    match f with
    | Func.IN =>
      let r2 := In env Pull.pullNoChange Edge.noEdge s1
      (r2.1, r2.2.1, eff1 ++ r2.2.2)
    | Func.IN_LOW =>
      let r2 := In env Pull.pullDown Edge.noEdge s1
      (r2.1, r2.2.1, eff1 ++ r2.2.2)
    | Func.IN_HIGH =>
      let r2 := In env Pull.pullUp Edge.noEdge s1
      (r2.1, r2.2.1, eff1 ++ r2.2.2)
    | Func.OUT =>
      match s1.line with
      | none => (some GoErr.nilLine, s1, eff1)
      | some l =>
        let effs := eff1 ++
          [Effect.reconfigure l [ReqOption.asOutput [], ReqOption.asPushPull]]
        if env.reconfigureOk then (none, s1, effs)
        else (some GoErr.reconfigureErr, s1, effs)
    | Func.OUT_OC =>
      match s1.line with
      | none => (some GoErr.nilLine, s1, eff1)
      | some l =>
        let effs := eff1 ++
          [Effect.reconfigure l [ReqOption.asOutput [], ReqOption.asOpenDrain]]
        if env.reconfigureOk then (none, s1, effs)
        else (some GoErr.reconfigureErr, s1, effs)
    | Func.OUT_HIGH =>
      let r2 := Out env true s1
      (r2.1, r2.2.1, eff1 ++ r2.2.2)
    | Func.OUT_LOW =>
      let r2 := Out env false s1
      (r2.1, r2.2.1, eff1 ++ r2.2.2)
    | g => (some (GoErr.unsupportedFunc g), s1, eff1)

/-- `pinAdapter.Read`.  `v % 2` (with `Int.emod`) equals the Go masking
`v & 0b1` on two's-complement integers. -/
def Read (env : Env) (s : PinState) : Bool × List Effect :=
  match s.line with
  | none => (false, [Effect.logError])
  | some l =>
    match env.readResult with
    | none => (false, [Effect.readValue l, Effect.logError])
    | some v =>
      let b := v % 2
      if v ≠ b then (itob b, [Effect.readValue l, Effect.logWarn])
      else (itob b, [Effect.readValue l])

/-- Capacity of the edge notification channel: the source allocates it
with `make(chan struct{})`, i.e. unbuffered. -/
def edgeChanCap : Nat := 0

/-- A non-blocking send on the edge channel (`select`/`default`) executed
while no receiver is blocked: it enqueues only if buffer space remains,
otherwise it is dropped. `pending` is the number of buffered tokens. -/
def notifyEdge (pending : Nat) : Nat :=
  if pending < edgeChanCap then pending + 1 else pending

/-- gpiocdev line event kinds relevant to `handleEvent`. -/
inductive LineEventType
  | risingEdge
  | fallingEdge
  | otherEvent
deriving DecidableEq, Repr

/-- `pinAdapter.handleEvent`: rising and falling edges post into the edge
channel non-blockingly; any other event type is ignored. -/
def handleEvent (t : LineEventType) (pending : Nat) : Nat :=
  match t with
  | LineEventType.risingEdge => notifyEdge pending
  | LineEventType.fallingEdge => notifyEdge pending
  | LineEventType.otherEvent => pending

/-- Timer effects of `WaitForEdge` (`time.NewTimer` / `defer timer.Stop()`). -/
inductive WaitEff
  | armTimer
  | stopTimer
deriving DecidableEq, Repr

/-- One microsecond in nanoseconds (`time.Duration` counts nanoseconds). -/
def microsecondNs : Int := 1000

/-- `pinAdapter.WaitForEdge`.  Time is abstracted: `pending` is the number
of buffered tokens in the edge channel (always 0 for the unbuffered
channel), and `sig` states whether a notification is offered concurrently
while this call is waiting or polling.  The result is `none` when the call
blocks forever (negative timeout with no notification).  With `timeout = 0`
the busy-wait loop performs no iteration at all (the deadline is the
current instant), so the call returns false without polling. -/
def WaitForEdge (timeout : Int) (pending : Nat) (sig : Bool) :
    Option (Bool × Nat) × List WaitEff :=
  if timeout < 0 then
    (if 0 < pending then some (true, pending - 1)
     else if sig then some (true, pending)
     else none, [])
  else if timeout < microsecondNs then
    (if timeout = 0 then some (false, pending)
     else if 0 < pending then some (true, pending - 1)
     else if sig then some (true, pending)
     else some (false, pending), [])
  else
    (if 0 < pending then some (true, pending - 1)
     else if sig then some (true, pending)
     else some (false, pending), [WaitEff.armTimer, WaitEff.stopTimer])

/-- Number of `Chip.RequestLine` invocations in an effect trace. -/
def countRequests : List Effect → Nat
  | [] => 0
  | Effect.requestLine _ :: es => countRequests es + 1
  | _ :: es => countRequests es

/-- Number of `Line.Reconfigure` invocations in an effect trace. -/
def countReconfigs : List Effect → Nat
  | [] => 0
  | Effect.reconfigure _ _ :: es => countReconfigs es + 1
  | _ :: es => countReconfigs es

/-- An environment in which every external gpiocdev call succeeds. -/
def envAllOk : Env :=
  { requestLine := some 1, watchOk := true,
    watchedInfo := { offset := 4, direction := LineDirection.input },
    reconfigureOk := true, setValueOk := true, readResult := some 0,
    closeOk := true, unwatchOk := true }

/-- A pin state whose line handle 7 is open, with cached offset 4. -/
def openPin7 : PinState :=
  { line := some 7, info := { offset := 4, direction := LineDirection.input } }

/-- A never-opened pin state with cached offset 4. -/
def closedPin : PinState :=
  { line := none, info := { offset := 4, direction := LineDirection.input } }

/-- Open outcomes for the two-caller race of the open-failure scenario:
caller 0's `RequestLine` succeeds with handle 5, every other caller's fails. -/
def raceOpenOf : Nat → Option Nat := fun i => if i = 0 then some 5 else none

/-- A function label outside the set handled by `SetFunc`'s switch. -/
def strangeFuncName : String := "UART0_TX"

/-- The corresponding unsupported `pin.Func` value. -/
def strangeFunc : Func := Func.other strangeFuncName

/-!
Concurrent model of `initPin`'s compare-and-swap open protocol.

Each caller runs the body of `initPin` against the shared atomic pointer
`p.line`.  A caller takes two atomic steps touching shared state: the
initial `p.line.Load()` check (after which it performs its private
`RequestLine`, whose outcome `openOf i` is fixed by the environment), and
the `CompareAndSwap(nil, line)` (the winner's subsequent
`WatchLineInfo`, with outcome `watchOf i`, touches no shared line state
and is folded into the same step).  `Go`'s `CompareAndSwap(nil, nil)`
succeeds when the pointer is still nil, leaving it nil.  A loser that had
opened a line closes it; the set of closed handles is recorded.
-/

namespace Conc

/-- Errors a caller of `initPin` can return in the concurrent model. -/
inductive Err
  | openFailed
  | watchFailed
deriving DecidableEq, Repr

/-- Program counter of one `initPin` caller: before the load check, after
its `RequestLine` returned `h`, or finished with result
`(opened, initialized, err)`. -/
inductive CallerSt
  | start
  | afterOpen (h : Option Nat)
  | done (opened : Option Nat) (initialized : Bool) (err : Option Err)
deriving DecidableEq, Repr

/-- Shared state: the atomic line pointer, the multiset of closed handles,
and each caller's program counter. -/
structure CState where
  shared : Option Nat
  closed : List Nat
  caller : Nat → CallerSt

/-- Pointwise update of the caller map. -/
def upd (f : Nat → CallerSt) (i : Nat) (c : CallerSt) : Nat → CallerSt :=
  fun j => if j = i then c else f j

/-- One atomic step of caller `i`.  `openOf i` is the outcome of that
caller's `RequestLine` (`none` = the open failed), `watchOf i` the outcome
of its `WatchLineInfo` if it wins with a live handle. -/
def step (openOf : Nat → Option Nat) (watchOf : Nat → Bool) (st : CState) (i : Nat) :
    CState :=
  match st.caller i with
  | CallerSt.start =>
    match st.shared with
    | some _ => { st with caller := upd st.caller i (CallerSt.done none false none) }
    | none => { st with caller := upd st.caller i (CallerSt.afterOpen (openOf i)) }
  | CallerSt.afterOpen h =>
    match st.shared with
    | none =>
      match h with
      | none =>
        { st with caller := upd st.caller i (CallerSt.done none false (some Err.openFailed)) }
      | some l =>
        if watchOf i then
          { shared := some l, closed := st.closed,
            caller := upd st.caller i (CallerSt.done (some l) true none) }
        else
          { shared := some l, closed := st.closed,
            caller := upd st.caller i (CallerSt.done (some l) false (some Err.watchFailed)) }
    | some _ =>
      match h with
      | none => { st with caller := upd st.caller i (CallerSt.done none false none) }
      | some l =>
        { shared := st.shared, closed := l :: st.closed,
          caller := upd st.caller i (CallerSt.done (some l) false none) }
  | CallerSt.done _ _ _ => st

/-- All callers at `start`, pointer nil, nothing closed. -/
def startState : CState :=
  { shared := none, closed := [], caller := fun _ => CallerSt.start }

/-- Run an interleaving: the schedule lists which caller takes the next
atomic step. -/
def run (openOf : Nat → Option Nat) (watchOf : Nat → Bool) (sched : List Nat) : CState :=
  sched.foldl (step openOf watchOf) startState

/-- The inductive invariant of the open protocol. -/
structure Inv (openOf : Nat → Option Nat) (st : CState) : Prop where
  afterOpen_eq : ∀ i h, st.caller i = CallerSt.afterOpen h → h = openOf i
  done_prov : ∀ i l b e, st.caller i = CallerSt.done (some l) b e → openOf i = some l
  shared_prov : ∀ l, st.shared = some l → ∃ i, openOf i = some l ∧
      (st.caller i = CallerSt.done (some l) true none ∨
       st.caller i = CallerSt.done (some l) false (some Err.watchFailed))
  done_acct : ∀ i l b e, st.caller i = CallerSt.done (some l) b e →
      st.shared = some l ∨ l ∈ st.closed
  err_none_shared : ∀ i h b, st.caller i = CallerSt.done h b none → st.shared.isSome
  closed_prov : ∀ l, l ∈ st.closed → ∃ i, openOf i = some l ∧
      st.caller i = CallerSt.done (some l) false none
  none_err : ∀ i b e, st.caller i = CallerSt.done none b e →
      e = none ∨ e = some Err.openFailed

theorem upd_same (f : Nat → CallerSt) (i : Nat) (c : CallerSt) : upd f i c i = c := by
  simp [upd]

theorem upd_ne (f : Nat → CallerSt) (i j : Nat) (c : CallerSt) (h : j ≠ i) :
    upd f i c j = f j := by
  simp [upd, h]

theorem inv_upd_done_none (openOf : Nat → Option Nat) (st : CState) (i : Nat)
    (hI : Inv openOf st) (b : Bool) (e : Option Err)
    (hnd : ∀ o b0 e0, st.caller i ≠ CallerSt.done o b0 e0)
    (he : e = none ∨ e = some Err.openFailed)
    (hsh : e = none → st.shared.isSome) :
    Inv openOf { st with caller := upd st.caller i (CallerSt.done none b e) } := by
  have hcne : ∀ j, j ≠ i → ({ st with caller := upd st.caller i (CallerSt.done none b e) } : CState).caller j = st.caller j :=
    fun j hj => upd_ne _ _ _ _ hj
  have hcei : ({ st with caller := upd st.caller i (CallerSt.done none b e) } : CState).caller i = CallerSt.done none b e :=
    upd_same _ _ _
  refine ⟨?_, ?_, ?_, ?_, ?_, ?_, ?_⟩
  · intro j h hj
    by_cases hji : j = i
    · subst hji; rw [hcei] at hj
      exact absurd hj (by simp)
    · rw [hcne j hji] at hj; exact hI.afterOpen_eq j h hj
  · intro j l b0 e0 hj
    by_cases hji : j = i
    · subst hji; rw [hcei] at hj; exact absurd hj (by simp)
    · rw [hcne j hji] at hj; exact hI.done_prov j l b0 e0 hj
  · intro l hl
    obtain ⟨i0, ho, hd⟩ := hI.shared_prov l hl
    have hne : i0 ≠ i := by
      intro hq; subst hq
      rcases hd with hd | hd <;> exact hnd _ _ _ hd
    refine ⟨i0, ho, ?_⟩
    rw [hcne i0 hne]
    exact hd
  · intro j l b0 e0 hj
    by_cases hji : j = i
    · subst hji; rw [hcei] at hj; exact absurd hj (by simp)
    · rw [hcne j hji] at hj; exact hI.done_acct j l b0 e0 hj
  · intro j h b0 hj
    by_cases hji : j = i
    · subst hji; rw [hcei] at hj
      injection hj with h1 h2 h3
      exact hsh h3
    · rw [hcne j hji] at hj; exact hI.err_none_shared j h b0 hj
  · intro l hl
    obtain ⟨i0, ho, hd⟩ := hI.closed_prov l hl
    have hne : i0 ≠ i := by
      intro hq; subst hq; exact hnd _ _ _ hd
    refine ⟨i0, ho, ?_⟩
    rw [hcne i0 hne]
    exact hd
  · intro j b0 e0 hj
    by_cases hji : j = i
    · subst hji; rw [hcei] at hj
      injection hj with h1 h2 h3
      rw [← h3]; exact he
    · rw [hcne j hji] at hj; exact hI.none_err j b0 e0 hj

theorem inv_upd_afterOpen (openOf : Nat → Option Nat) (st : CState) (i : Nat)
    (hI : Inv openOf st) (hc : st.caller i = CallerSt.start) :
    Inv openOf { st with caller := upd st.caller i (CallerSt.afterOpen (openOf i)) } := by
  have hnd : ∀ o b0 e0, st.caller i ≠ CallerSt.done o b0 e0 := by
    intro o b0 e0 hq; rw [hc] at hq; exact absurd hq (by simp)
  have hcne : ∀ j, j ≠ i → ({ st with caller := upd st.caller i (CallerSt.afterOpen (openOf i)) } : CState).caller j = st.caller j :=
    fun j hj => upd_ne _ _ _ _ hj
  have hcei : ({ st with caller := upd st.caller i (CallerSt.afterOpen (openOf i)) } : CState).caller i = CallerSt.afterOpen (openOf i) :=
    upd_same _ _ _
  refine ⟨?_, ?_, ?_, ?_, ?_, ?_, ?_⟩
  · intro j h hj
    by_cases hji : j = i
    · subst hji; rw [hcei] at hj
      injection hj with h1
      exact h1.symm
    · rw [hcne j hji] at hj; exact hI.afterOpen_eq j h hj
  · intro j l b0 e0 hj
    by_cases hji : j = i
    · subst hji; rw [hcei] at hj; exact absurd hj (by simp)
    · rw [hcne j hji] at hj; exact hI.done_prov j l b0 e0 hj
  · intro l hl
    obtain ⟨i0, ho, hd⟩ := hI.shared_prov l hl
    have hne : i0 ≠ i := by
      intro hq; subst hq
      rcases hd with hd | hd <;> exact hnd _ _ _ hd
    refine ⟨i0, ho, ?_⟩
    rw [hcne i0 hne]
    exact hd
  · intro j l b0 e0 hj
    by_cases hji : j = i
    · subst hji; rw [hcei] at hj; exact absurd hj (by simp)
    · rw [hcne j hji] at hj; exact hI.done_acct j l b0 e0 hj
  · intro j h b0 hj
    by_cases hji : j = i
    · subst hji; rw [hcei] at hj; exact absurd hj (by simp)
    · rw [hcne j hji] at hj; exact hI.err_none_shared j h b0 hj
  · intro l hl
    obtain ⟨i0, ho, hd⟩ := hI.closed_prov l hl
    have hne : i0 ≠ i := by
      intro hq; subst hq; exact hnd _ _ _ hd
    refine ⟨i0, ho, ?_⟩
    rw [hcne i0 hne]
    exact hd
  · intro j b0 e0 hj
    by_cases hji : j = i
    · subst hji; rw [hcei] at hj; exact absurd hj (by simp)
    · rw [hcne j hji] at hj; exact hI.none_err j b0 e0 hj

theorem inv_cas_win (openOf : Nat → Option Nat) (st : CState) (i l : Nat)
    (hI : Inv openOf st) (hc : st.caller i = CallerSt.afterOpen (some l))
    (hs : st.shared = none) (b : Bool) (e : Option Err)
    (hbe : (b = true ∧ e = none) ∨ (b = false ∧ e = some Err.watchFailed)) :
    Inv openOf { shared := some l, closed := st.closed, caller := upd st.caller i (CallerSt.done (some l) b e) } := by
  have hnd : ∀ o b0 e0, st.caller i ≠ CallerSt.done o b0 e0 := by
    intro o b0 e0 hq; rw [hc] at hq; exact absurd hq (by simp)
  have hop : openOf i = some l := (hI.afterOpen_eq i (some l) hc).symm
  have hcne : ∀ j, j ≠ i → ({ shared := some l, closed := st.closed, caller := upd st.caller i (CallerSt.done (some l) b e) } : CState).caller j = st.caller j :=
    fun j hj => upd_ne _ _ _ _ hj
  have hcei : ({ shared := some l, closed := st.closed, caller := upd st.caller i (CallerSt.done (some l) b e) } : CState).caller i = CallerSt.done (some l) b e :=
    upd_same _ _ _
  refine ⟨?_, ?_, ?_, ?_, ?_, ?_, ?_⟩
  · intro j h hj
    by_cases hji : j = i
    · subst hji; rw [hcei] at hj; exact absurd hj (by simp)
    · rw [hcne j hji] at hj; exact hI.afterOpen_eq j h hj
  · intro j m b0 e0 hj
    by_cases hji : j = i
    · subst hji; rw [hcei] at hj
      injection hj with h1
      rw [← h1]; exact hop
    · rw [hcne j hji] at hj; exact hI.done_prov j m b0 e0 hj
  · intro m hm
    have hml : m = l := by
      have : (some l : Option Nat) = some m := hm
      injection this with h1; exact h1.symm
    subst hml
    refine ⟨i, hop, ?_⟩
    rw [hcei]
    rcases hbe with ⟨hb, he⟩ | ⟨hb, he⟩
    · subst hb; subst he; exact Or.inl rfl
    · subst hb; subst he; exact Or.inr rfl
  · intro j m b0 e0 hj
    by_cases hji : j = i
    · subst hji; rw [hcei] at hj
      injection hj with h1
      exact Or.inl (by rw [← h1])
    · rw [hcne j hji] at hj
      rcases hI.done_acct j m b0 e0 hj with hq | hq
      · rw [hs] at hq; exact absurd hq (by simp)
      · exact Or.inr hq
  · intro j h b0 hj
    simp
  · intro m hm
    obtain ⟨i0, ho, hd⟩ := hI.closed_prov m hm
    have hne : i0 ≠ i := by
      intro hq; subst hq; exact hnd _ _ _ hd
    refine ⟨i0, ho, ?_⟩
    rw [hcne i0 hne]
    exact hd
  · intro j b0 e0 hj
    by_cases hji : j = i
    · subst hji; rw [hcei] at hj; exact absurd hj (by simp)
    · rw [hcne j hji] at hj; exact hI.none_err j b0 e0 hj

theorem inv_cas_lose (openOf : Nat → Option Nat) (st : CState) (i l m : Nat)
    (hI : Inv openOf st) (hc : st.caller i = CallerSt.afterOpen (some l))
    (hs : st.shared = some m) :
    Inv openOf { shared := st.shared, closed := l :: st.closed, caller := upd st.caller i (CallerSt.done (some l) false none) } := by
  have hnd : ∀ o b0 e0, st.caller i ≠ CallerSt.done o b0 e0 := by
    intro o b0 e0 hq; rw [hc] at hq; exact absurd hq (by simp)
  have hop : openOf i = some l := (hI.afterOpen_eq i (some l) hc).symm
  have hcne : ∀ j, j ≠ i → ({ shared := st.shared, closed := l :: st.closed, caller := upd st.caller i (CallerSt.done (some l) false none) } : CState).caller j = st.caller j :=
    fun j hj => upd_ne _ _ _ _ hj
  have hcei : ({ shared := st.shared, closed := l :: st.closed, caller := upd st.caller i (CallerSt.done (some l) false none) } : CState).caller i = CallerSt.done (some l) false none :=
    upd_same _ _ _
  refine ⟨?_, ?_, ?_, ?_, ?_, ?_, ?_⟩
  · intro j h hj
    by_cases hji : j = i
    · subst hji; rw [hcei] at hj; exact absurd hj (by simp)
    · rw [hcne j hji] at hj; exact hI.afterOpen_eq j h hj
  · intro j n b0 e0 hj
    by_cases hji : j = i
    · subst hji; rw [hcei] at hj
      injection hj with h1
      rw [← h1]; exact hop
    · rw [hcne j hji] at hj; exact hI.done_prov j n b0 e0 hj
  · intro n hn
    obtain ⟨i0, ho, hd⟩ := hI.shared_prov n hn
    have hne : i0 ≠ i := by
      intro hq; subst hq
      rcases hd with hd | hd <;> exact hnd _ _ _ hd
    refine ⟨i0, ho, ?_⟩
    rw [hcne i0 hne]
    exact hd
  · intro j n b0 e0 hj
    by_cases hji : j = i
    · subst hji; rw [hcei] at hj
      injection hj with h1
      injection h1 with h2
      refine Or.inr ?_
      rw [← h2]
      exact List.mem_cons_self l st.closed
    · rw [hcne j hji] at hj
      rcases hI.done_acct j n b0 e0 hj with hq | hq
      · exact Or.inl hq
      · exact Or.inr (List.mem_cons_of_mem l hq)
  · intro j h b0 hj
    show st.shared.isSome
    rw [hs]; rfl
  · intro n hn
    rcases List.mem_cons.mp hn with hq | hq
    · subst hq
      refine ⟨i, hop, ?_⟩
      rw [hcei]
    · obtain ⟨i0, ho, hd⟩ := hI.closed_prov n hq
      have hne : i0 ≠ i := by
        intro he; subst he; exact hnd _ _ _ hd
      refine ⟨i0, ho, ?_⟩
      rw [hcne i0 hne]
      exact hd
  · intro j b0 e0 hj
    by_cases hji : j = i
    · subst hji; rw [hcei] at hj; exact absurd hj (by simp)
    · rw [hcne j hji] at hj; exact hI.none_err j b0 e0 hj

theorem inv_step (openOf : Nat → Option Nat) (watchOf : Nat → Bool) (st : CState)
    (i : Nat) (hI : Inv openOf st) : Inv openOf (step openOf watchOf st i) := by
  cases hc : st.caller i with
  | done o b e =>
    simpa [step, hc] using hI
  | start =>
    cases hs : st.shared with
    | some m =>
      have hnd : ∀ o b0 e0, st.caller i ≠ CallerSt.done o b0 e0 := by
        intro o b0 e0 hq; rw [hc] at hq; exact absurd hq (by simp)
      have h2 := inv_upd_done_none openOf st i hI false none hnd (Or.inl rfl)
        (fun _ => by rw [hs]; rfl)
      simpa [step, hc, hs] using h2
    | none =>
      have h2 := inv_upd_afterOpen openOf st i hI hc
      simpa [step, hc, hs] using h2
  | afterOpen h =>
    cases hs : st.shared with
    | none =>
      cases h with
      | none =>
        have hnd : ∀ o b0 e0, st.caller i ≠ CallerSt.done o b0 e0 := by
          intro o b0 e0 hq; rw [hc] at hq; exact absurd hq (by simp)
        have h2 := inv_upd_done_none openOf st i hI false (some Err.openFailed) hnd
          (Or.inr rfl) (fun hq => absurd hq (by simp))
        simpa [step, hc, hs] using h2
      | some l =>
        cases hw : watchOf i with
        | true =>
          have h2 := inv_cas_win openOf st i l hI hc hs true none (Or.inl ⟨rfl, rfl⟩)
          simpa [step, hc, hs, hw] using h2
        | false =>
          have h2 := inv_cas_win openOf st i l hI hc hs false (some Err.watchFailed)
            (Or.inr ⟨rfl, rfl⟩)
          simpa [step, hc, hs, hw] using h2
    | some m =>
      cases h with
      | none =>
        have hnd : ∀ o b0 e0, st.caller i ≠ CallerSt.done o b0 e0 := by
          intro o b0 e0 hq; rw [hc] at hq; exact absurd hq (by simp)
        have h2 := inv_upd_done_none openOf st i hI false none hnd (Or.inl rfl)
          (fun _ => by rw [hs]; rfl)
        simpa [step, hc, hs] using h2
      | some l =>
        have h2 := inv_cas_lose openOf st i l m hI hc hs
        simpa [step, hc, hs] using h2

theorem inv_foldl (openOf : Nat → Option Nat) (watchOf : Nat → Bool)
    (sched : List Nat) :
    ∀ st : CState, Inv openOf st → Inv openOf (sched.foldl (step openOf watchOf) st) := by
  induction sched with
  | nil => intro st h; exact h
  | cons a tl ih => intro st h; exact ih _ (inv_step openOf watchOf st a h)

theorem inv_startState (openOf : Nat → Option Nat) : Inv openOf startState := by
  constructor <;> (intros; simp_all [startState])

theorem inv_run (openOf : Nat → Option Nat) (watchOf : Nat → Bool) (sched : List Nat) :
    Inv openOf (run openOf watchOf sched) :=
  inv_foldl openOf watchOf sched startState (inv_startState openOf)

end Conc

/-- C1, counterexample.  The claim states that after two edge notifications
with no intervening wait exactly one pending token is held and a following
wait observes that edge.  In the code the edge channel is allocated
unbuffered (`make(chan struct{})`), so a notification finding no blocked
receiver is dropped outright: after two `handleEvent` notifications zero
tokens are pending and the following wait with timeout 0 returns false. -/
theorem edge_two_notifies_not_one_pending :
    ¬(handleEvent LineEventType.risingEdge (handleEvent LineEventType.risingEdge 0) = 1 ∧
      (WaitForEdge 0 (handleEvent LineEventType.risingEdge
        (handleEvent LineEventType.risingEdge 0)) false).1 = some (true, 0)) := by
  decide

/-- C1, amended: the edge channel is unbuffered, so an edge notification
arriving while no receiver is waiting is dropped entirely as a non-blocking
no-op and never queued; after two notifications with no intervening (or
concurrent) wait, zero pending tokens are held, a following wait with
timeout 0 returns false, and so does a third wait with nothing pending. -/
theorem edge_notifications_dropped :
    (∀ t p, handleEvent t p = p) ∧
    (∀ p, (WaitForEdge 0 p false).1 = some (false, p)) ∧
    (handleEvent LineEventType.risingEdge (handleEvent LineEventType.risingEdge 0) = 0 ∧
      (WaitForEdge 0 0 false).1 = some (false, 0)) := by
  refine ⟨?_, ?_, by decide⟩
  · intro t p
    cases t <;> simp [handleEvent, notifyEdge, edgeChanCap]
  · intro p
    norm_num [WaitForEdge, microsecondNs]

/-- C2, counterexample.  The claim states that after a first Halt a second
Halt is a no-op returning success, the line reference having been cleared by
the first halt.  In the code `Halt` never stores nil back into `p.line`:
after a successful Halt the reference still holds the closed handle, and a
second Halt performs the close and unwatch cleanup actions again. -/
theorem halt_second_call_not_noop :
    ((Halt envAllOk openPin7).2.1.line = some 7) ∧
    ((Halt envAllOk ((Halt envAllOk openPin7).2.1)).2.2 =
      [Effect.closeLine 7, Effect.unwatchLineInfo 4]) := by
  decide

/-- C2, amended: halting a never-opened handle is a no-op success with no
side effects; `Halt` never clears the line reference, so a second Halt is
not a no-op: it re-attempts both cleanup actions (close and unwatch) and
returns success exactly when both external calls succeed again. -/
theorem halt_behavior (env : Env) (s : PinState) :
    (s.line = none → Halt env s = (none, s, [])) ∧
    ((Halt env s).2.1 = s) ∧
    (∀ l, s.line = some l →
      (Halt env s).2.2 = [Effect.closeLine l, Effect.unwatchLineInfo s.info.offset] ∧
      ((Halt env s).1 = none ↔ env.closeOk = true ∧ env.unwatchOk = true)) := by
  refine ⟨?_, ?_, ?_⟩
  · intro h; simp [Halt, h]
  · cases h : s.line <;> simp [Halt, h]
  · intro l h
    refine ⟨by simp [Halt, h], ?_⟩
    cases hc : env.closeOk <;> cases hu : env.unwatchOk <;> simp [Halt, h, hc, hu]

/-- C2 witness: evaluating `halt_behavior` on a concrete open pin. -/
theorem halt_behavior_witness :
    (Halt envAllOk openPin7).2.2 = [Effect.closeLine 7, Effect.unwatchLineInfo 4] :=
  ((halt_behavior envAllOk openPin7).2.2 7 rfl).1

/-- C3: single-open invariant.  For any interleaving of `initPin` callers
(with distinct handles returned by the distinct `RequestLine` calls):
every handle a caller opened is either the canonical shared handle or was
immediately closed by its opener; the canonical handle is never closed and
stems from a successful open; and every caller that finished without an
error operates with a live canonical handle installed. -/
theorem single_open_invariant (openOf : Nat → Option Nat) (watchOf : Nat → Bool)
    (sched : List Nat)
    (hinj : ∀ i j l, openOf i = some l → openOf j = some l → i = j) :
    (∀ i l b e, (Conc.run openOf watchOf sched).caller i = Conc.CallerSt.done (some l) b e →
      (Conc.run openOf watchOf sched).shared = some l ∨
        l ∈ (Conc.run openOf watchOf sched).closed) ∧
    (∀ l, (Conc.run openOf watchOf sched).shared = some l →
      l ∉ (Conc.run openOf watchOf sched).closed ∧ ∃ i, openOf i = some l) ∧
    (∀ i h b, (Conc.run openOf watchOf sched).caller i = Conc.CallerSt.done h b none →
      ((Conc.run openOf watchOf sched).shared).isSome) := by
  have hI := Conc.inv_run openOf watchOf sched
  refine ⟨hI.done_acct, ?_, hI.err_none_shared⟩
  intro l hl
  obtain ⟨i0, ho0, hw⟩ := hI.shared_prov l hl
  refine ⟨?_, ⟨i0, ho0⟩⟩
  intro hmem
  obtain ⟨j0, hoj, hj⟩ := hI.closed_prov l hmem
  have hji : j0 = i0 := hinj j0 i0 l hoj ho0
  subst hji
  rcases hw with hw | hw <;> rw [hj] at hw <;> exact absurd hw (by simp)

/-- C3 witness: a concrete two-step race in which caller 0 opens handle 0
and wins; its error-free completion implies a live canonical handle. -/
theorem single_open_invariant_witness :
    ((Conc.run (fun i => some i) (fun _ => true) [0, 0]).shared).isSome :=
  (single_open_invariant (fun i => some i) (fun _ => true) [0, 0]
    (fun i j l hi hj => by
      injection hi with hi1
      injection hj with hj1
      omega)).2.2 0 (some 0) true (by decide)

/-- C4, counterexample.  The claim states the open error is reported both
when the failing caller wins the compare-and-swap and when it loses.  In
the code a failing caller that loses the race to a live winner takes the
`!CompareAndSwap` branch and returns `(false, nil)`: the error is dropped.
Concretely, caller 1's open fails, caller 0 wins with live handle 5, and
caller 1 finishes with no error reported. -/
theorem open_failure_loser_reports_no_error :
    raceOpenOf 1 = none ∧
    (Conc.run raceOpenOf (fun _ => true) [0, 1, 0, 1]).caller 1 =
      Conc.CallerSt.done none false none ∧
    (Conc.run raceOpenOf (fun _ => true) [0, 1, 0, 1]).shared = some 5 := by
  decide

/-- C4, amended: when opening the line fails, the triggering caller reports
the error exactly when it wins the compare-and-swap with its nil handle;
when it loses the race (to a caller that installed a live handle) the error
is swallowed and the call returns success, the caller proceeding on the
winner's handle; and the failure never corrupts a concurrently obtained
handle: the shared reference ends up either nil or holding a handle some
caller's `RequestLine` successfully returned. -/
theorem open_failure_reporting (openOf : Nat → Option Nat) (watchOf : Nat → Bool)
    (sched : List Nat) :
    (∀ i b e, (Conc.run openOf watchOf sched).caller i = Conc.CallerSt.done none b e →
      e = some Conc.Err.openFailed ∨
        (e = none ∧ ((Conc.run openOf watchOf sched).shared).isSome)) ∧
    ((Conc.run openOf watchOf sched).shared = none ∨
      ∃ i l, openOf i = some l ∧ (Conc.run openOf watchOf sched).shared = some l) := by
  have hI := Conc.inv_run openOf watchOf sched
  constructor
  · intro i b e hdone
    rcases hI.none_err i b e hdone with he | he
    · subst he
      exact Or.inr ⟨rfl, hI.err_none_shared i none b hdone⟩
    · exact Or.inl he
  · cases hsh : (Conc.run openOf watchOf sched).shared with
    | none => exact Or.inl rfl
    | some l =>
      obtain ⟨i0, ho, _⟩ := hI.shared_prov l hsh
      exact Or.inr ⟨i0, l, ho, rfl⟩

/-- C4 witness: a lone caller whose open fails wins the compare-and-swap
with nil and therefore reports the open failure. -/
theorem open_failure_reporting_witness :
    some Conc.Err.openFailed = some Conc.Err.openFailed ∨
      (some Conc.Err.openFailed = none ∧
        ((Conc.run (fun _ => none) (fun _ => true) [0, 0]).shared).isSome) :=
  (open_failure_reporting (fun _ => none) (fun _ => true) [0, 0]).1 0 false
    (some Conc.Err.openFailed) (by decide)

/-- C5: `Out` write behavior.  On an unopened pin the line is opened
directly as an output carrying the level (one `RequestLine` with
`AsOutput(level)`, no separate value set); on an open pin whose cached
direction is not output, a single reconfigure-as-output carrying the level
is performed (no separate value set); on an open pin already an output,
only the value is set. -/
theorem out_write_behavior (env : Env) (lvl : Bool) (s : PinState) :
    (∀ l, s.line = none → env.requestLine = some l → env.watchOk = true →
      Out env lvl s =
        (none, { line := some l, info := env.watchedInfo },
          [Effect.requestLine [ReqOption.asOutput [btoi lvl], ReqOption.withEventHandler],
           Effect.watchLineInfo s.info.offset, Effect.logDebug])) ∧
    (∀ l, s.line = some l → s.info.direction ≠ LineDirection.output →
      env.reconfigureOk = true →
      Out env lvl s = (none, s, [Effect.reconfigure l [ReqOption.asOutput [btoi lvl]]])) ∧
    (∀ l, s.line = some l → s.info.direction = LineDirection.output →
      env.setValueOk = true →
      Out env lvl s = (none, s, [Effect.setValue l (btoi lvl)])) := by
  refine ⟨?_, ?_, ?_⟩
  · intro l h1 h2 h3
    simp [Out, initPin, h1, h2, h3]
  · intro l h1 h2 h3
    simp [Out, initPin, h1, h2, h3]
  · intro l h1 h2 h3
    simp [Out, initPin, h1, h2, h3]

/-- C5 witness: evaluating `out_write_behavior` on concrete states. -/
theorem out_write_behavior_witness :
    Out envAllOk true closedPin =
      (none, { line := some 1, info := envAllOk.watchedInfo },
        [Effect.requestLine [ReqOption.asOutput [1], ReqOption.withEventHandler],
         Effect.watchLineInfo 4, Effect.logDebug]) :=
  (out_write_behavior envAllOk true closedPin).1 1 rfl rfl rfl

/-- C6: configuration translation.  `In` maps pull no-change to bias-as-is,
pull-up and pull-down to the native pulls, float to bias-disabled, passes
the requested edge policy through to the native options, and `SetFunc`
routes IN through `In(no-change, none)`, IN_HIGH through
`In(pull-up, none)`, IN_LOW through `In(pull-down, none)`, and
OUT_HIGH/OUT_LOW through `Out(high)`/`Out(low)`. -/
theorem config_translation (env : Env) (s : PinState) :
    pullToBias Pull.pullNoChange = some LineBias.withBiasAsIs ∧
    pullToBias Pull.pullUp = some LineBias.withPullUp ∧
    pullToBias Pull.pullDown = some LineBias.withPullDown ∧
    pullToBias Pull.float = some LineBias.withBiasDisabled ∧
    edgeToNative Edge.noEdge = some LineEdge.withoutEdges ∧
    edgeToNative Edge.risingEdge = some LineEdge.withRisingEdge ∧
    edgeToNative Edge.fallingEdge = some LineEdge.withFallingEdge ∧
    edgeToNative Edge.bothEdges = some LineEdge.withBothEdges ∧
    (∀ l pull edge cb ce, s.line = some l → pullToBias pull = some cb →
      edgeToNative edge = some ce → env.reconfigureOk = true →
      In env pull edge s =
        (none, s, [Effect.reconfigure l
          [ReqOption.asInput, ReqOption.withBias cb, ReqOption.withEdge ce]])) ∧
    (∀ l, s.line = some l →
      SetFunc env Func.IN s =
        ((In env Pull.pullNoChange Edge.noEdge s).1,
         (In env Pull.pullNoChange Edge.noEdge s).2.1,
         Effect.logDebug :: (In env Pull.pullNoChange Edge.noEdge s).2.2) ∧
      SetFunc env Func.IN_HIGH s =
        ((In env Pull.pullUp Edge.noEdge s).1,
         (In env Pull.pullUp Edge.noEdge s).2.1,
         Effect.logDebug :: (In env Pull.pullUp Edge.noEdge s).2.2) ∧
      SetFunc env Func.IN_LOW s =
        ((In env Pull.pullDown Edge.noEdge s).1,
         (In env Pull.pullDown Edge.noEdge s).2.1,
         Effect.logDebug :: (In env Pull.pullDown Edge.noEdge s).2.2) ∧
      SetFunc env Func.OUT_HIGH s =
        ((Out env true s).1, (Out env true s).2.1,
         Effect.logDebug :: (Out env true s).2.2) ∧
      SetFunc env Func.OUT_LOW s =
        ((Out env false s).1, (Out env false s).2.1,
         Effect.logDebug :: (Out env false s).2.2)) := by
  refine ⟨rfl, rfl, rfl, rfl, rfl, rfl, rfl, rfl, ?_, ?_⟩
  · intro l pull edge cb ce h1 h2 h3 h4
    simp [In, initPin, h1, h2, h3, h4]
  · intro l h
    refine ⟨?_, ?_, ?_, ?_, ?_⟩ <;> simp [SetFunc, initPin, h]

/-- C6 witness: evaluating `config_translation` on a concrete open pin. -/
theorem config_translation_witness :
    In envAllOk Pull.pullUp Edge.bothEdges openPin7 =
      (none, openPin7, [Effect.reconfigure 7
        [ReqOption.asInput, ReqOption.withBias LineBias.withPullUp,
         ReqOption.withEdge LineEdge.withBothEdges]]) :=
  (config_translation envAllOk openPin7).2.2.2.2.2.2.2.2.1 7 Pull.pullUp Edge.bothEdges
    LineBias.withPullUp LineEdge.withBothEdges rfl rfl rfl rfl

/-- C7: `Read` safe default and bit masking.  Reading an unopened pin logs
an error and returns low; a failing underlying read logs and returns low;
a read returning 3 yields high (bit 0) with a warning; in general only
bit 0 of the read value is ever propagated. -/
theorem read_safe_default (env : Env) (s : PinState) :
    (s.line = none → Read env s = (false, [Effect.logError])) ∧
    (∀ l, s.line = some l → env.readResult = none →
      Read env s = (false, [Effect.readValue l, Effect.logError])) ∧
    (∀ l, s.line = some l → env.readResult = some 3 →
      Read env s = (true, [Effect.readValue l, Effect.logWarn])) ∧
    (∀ l v, s.line = some l → env.readResult = some v →
      (Read env s).1 = itob (v % 2)) := by
  refine ⟨?_, ?_, ?_, ?_⟩
  · intro h; simp [Read, h]
  · intro l h1 h2; simp [Read, h1, h2]
  · intro l h1 h2
    norm_num [Read, h1, h2, itob]
  · intro l v h1 h2
    simp only [Read, h1, h2]
    split <;> rfl

/-- C7 witness: evaluating `read_safe_default` on concrete inputs. -/
theorem read_safe_default_witness :
    Read { envAllOk with readResult := some 3 } openPin7 =
      (true, [Effect.readValue 7, Effect.logWarn]) :=
  (read_safe_default { envAllOk with readResult := some 3 } openPin7).2.2.1 7 rfl rfl

/-- C8: `WaitForEdge` timeout semantics.  A negative timeout blocks until
notified and then returns true; timeout 0 returns false immediately with
nothing pending and arms no timer; a positive sub-microsecond timeout
busy-polls (no timer), returning true exactly when a notification arrives
in the window; a timeout of at least one microsecond arms a deadline timer
and stops it unconditionally, returning true on a notification and false
when only the timer fires. -/
theorem wait_for_edge_timeouts :
    (∀ t : Int, t < 0 →
      (WaitForEdge t 0 false).1 = none ∧ (WaitForEdge t 0 true).1 = some (true, 0)) ∧
    (WaitForEdge 0 0 false = (some (false, 0), [])) ∧
    (∀ t : Int, 0 < t → t < 1000 →
      WaitForEdge t 0 false = (some (false, 0), []) ∧
      WaitForEdge t 0 true = (some (true, 0), [])) ∧
    (∀ (t : Int) (p : Nat) (sig : Bool), 1000 ≤ t →
      (WaitForEdge t p sig).2 = [WaitEff.armTimer, WaitEff.stopTimer]) ∧
    (∀ t : Int, 1000 ≤ t →
      (WaitForEdge t 0 false).1 = some (false, 0) ∧
      (WaitForEdge t 0 true).1 = some (true, 0)) := by
  refine ⟨?_, ?_, ?_, ?_, ?_⟩
  · intro t ht
    constructor <;> simp [WaitForEdge, ht]
  · norm_num [WaitForEdge, microsecondNs]
  · intro t ht1 ht2
    have h1 : ¬ t < 0 := by omega
    have h2 : t < microsecondNs := by simpa [microsecondNs] using ht2
    have h3 : ¬ t = 0 := by omega
    constructor <;> simp [WaitForEdge, h1, h2, h3]
  · intro t p sig ht
    have h1 : ¬ t < 0 := by omega
    have h2 : ¬ t < microsecondNs := by simp [microsecondNs]; omega
    simp [WaitForEdge, h1, h2]
  · intro t ht
    have h1 : ¬ t < 0 := by omega
    have h2 : ¬ t < microsecondNs := by simp [microsecondNs]; omega
    constructor <;> simp [WaitForEdge, h1, h2]

/-- C8 witness: evaluating `wait_for_edge_timeouts` at concrete timeouts. -/
theorem wait_for_edge_timeouts_witness :
    (WaitForEdge (-1) 0 false).1 = none ∧
    (WaitForEdge 2000 0 false).2 = [WaitEff.armTimer, WaitEff.stopTimer] :=
  ⟨(wait_for_edge_timeouts.1 (-1) (by norm_num)).1,
   wait_for_edge_timeouts.2.2.2.1 2000 0 false (by norm_num)⟩

theorem countRequests_nil : countRequests [] = 0 := rfl

theorem countRequests_requestLine (o : List ReqOption) (es : List Effect) :
    countRequests (Effect.requestLine o :: es) = countRequests es + 1 := rfl

theorem countRequests_watchInfo (a : Nat) (es : List Effect) :
    countRequests (Effect.watchLineInfo a :: es) = countRequests es := rfl

theorem countRequests_reconfig (a : Nat) (o : List ReqOption) (es : List Effect) :
    countRequests (Effect.reconfigure a o :: es) = countRequests es := rfl

theorem countRequests_setValue (a : Nat) (v : Int) (es : List Effect) :
    countRequests (Effect.setValue a v :: es) = countRequests es := rfl

theorem countRequests_logDebug (es : List Effect) :
    countRequests (Effect.logDebug :: es) = countRequests es := rfl

theorem countReconfigs_nil : countReconfigs [] = 0 := rfl

theorem countReconfigs_requestLine (o : List ReqOption) (es : List Effect) :
    countReconfigs (Effect.requestLine o :: es) = countReconfigs es := rfl

theorem countReconfigs_watchInfo (a : Nat) (es : List Effect) :
    countReconfigs (Effect.watchLineInfo a :: es) = countReconfigs es := rfl

theorem countReconfigs_reconfig (a : Nat) (o : List ReqOption) (es : List Effect) :
    countReconfigs (Effect.reconfigure a o :: es) = countReconfigs es + 1 := rfl

theorem countReconfigs_setValue (a : Nat) (v : Int) (es : List Effect) :
    countReconfigs (Effect.setValue a v :: es) = countReconfigs es := rfl

theorem countReconfigs_logDebug (es : List Effect) :
    countReconfigs (Effect.logDebug :: es) = countReconfigs es := rfl

theorem in_counts_open (env : Env) (pull : Pull) (edge : Edge) (s : PinState) (l : Nat)
    (h : s.line = some l) :
    countRequests (In env pull edge s).2.2 = 0 ∧
      countReconfigs (In env pull edge s).2.2 ≤ 1 := by
  cases hp : pullToBias pull with
  | none => simp [In, hp, countRequests_nil, countReconfigs_nil]
  | some cb =>
    cases he : edgeToNative edge with
    | none => simp [In, hp, he, countRequests_nil, countReconfigs_nil]
    | some ce =>
      cases hr : env.reconfigureOk <;>
        simp [In, hp, he, initPin, h, hr, countRequests_reconfig, countRequests_nil,
          countReconfigs_reconfig, countReconfigs_nil]

theorem out_counts_open (env : Env) (lvl : Bool) (s : PinState) (l : Nat)
    (h : s.line = some l) :
    countRequests (Out env lvl s).2.2 = 0 ∧
      countReconfigs (Out env lvl s).2.2 ≤ 1 := by
  by_cases hd : s.info.direction = LineDirection.output
  · cases hv : env.setValueOk <;>
      simp [Out, initPin, h, hd, hv, countRequests_setValue, countRequests_nil,
        countReconfigs_setValue, countReconfigs_nil]
  · cases hr : env.reconfigureOk <;>
      simp [Out, initPin, h, hd, hr, countRequests_reconfig, countRequests_nil,
        countReconfigs_reconfig, countReconfigs_nil]

/-- C9: idempotent open-or-reuse.  On an already-open pin, `In`, `Out` and
`SetFunc` make no `RequestLine` call and at most one `Reconfigure` call. -/
theorem idempotent_open_or_reuse (env : Env) (pull : Pull) (edge : Edge) (lvl : Bool)
    (f : Func) (s : PinState) (l : Nat) (h : s.line = some l) :
    (countRequests (In env pull edge s).2.2 = 0 ∧
      countReconfigs (In env pull edge s).2.2 ≤ 1) ∧
    (countRequests (Out env lvl s).2.2 = 0 ∧
      countReconfigs (Out env lvl s).2.2 ≤ 1) ∧
    (countRequests (SetFunc env f s).2.2 = 0 ∧
      countReconfigs (SetFunc env f s).2.2 ≤ 1) := by
  refine ⟨in_counts_open env pull edge s l h, out_counts_open env lvl s l h, ?_⟩
  cases f with
  | IN =>
    have hi := in_counts_open env Pull.pullNoChange Edge.noEdge s l h
    simpa [SetFunc, initPin, h, countRequests_logDebug, countReconfigs_logDebug] using hi
  | IN_HIGH =>
    have hi := in_counts_open env Pull.pullUp Edge.noEdge s l h
    simpa [SetFunc, initPin, h, countRequests_logDebug, countReconfigs_logDebug] using hi
  | IN_LOW =>
    have hi := in_counts_open env Pull.pullDown Edge.noEdge s l h
    simpa [SetFunc, initPin, h, countRequests_logDebug, countReconfigs_logDebug] using hi
  | OUT =>
    cases hr : env.reconfigureOk <;>
      simp [SetFunc, initPin, h, hr, countRequests_logDebug, countRequests_reconfig,
        countRequests_nil, countReconfigs_logDebug, countReconfigs_reconfig,
        countReconfigs_nil]
  | OUT_OC =>
    cases hr : env.reconfigureOk <;>
      simp [SetFunc, initPin, h, hr, countRequests_logDebug, countRequests_reconfig,
        countRequests_nil, countReconfigs_logDebug, countReconfigs_reconfig,
        countReconfigs_nil]
  | OUT_HIGH =>
    have ho := out_counts_open env true s l h
    simpa [SetFunc, initPin, h, countRequests_logDebug, countReconfigs_logDebug] using ho
  | OUT_LOW =>
    have ho := out_counts_open env false s l h
    simpa [SetFunc, initPin, h, countRequests_logDebug, countReconfigs_logDebug] using ho
  | FLOAT =>
    simp [SetFunc, initPin, h, countRequests_logDebug, countRequests_nil,
      countReconfigs_logDebug, countReconfigs_nil]
  | other nm =>
    simp [SetFunc, initPin, h, countRequests_logDebug, countRequests_nil,
      countReconfigs_logDebug, countReconfigs_nil]

/-- C9 witness: evaluating `idempotent_open_or_reuse` on a concrete open pin. -/
theorem idempotent_open_or_reuse_witness :
    countRequests (SetFunc envAllOk Func.OUT openPin7).2.2 = 0 :=
  ((idempotent_open_or_reuse envAllOk Pull.pullUp Edge.noEdge true Func.OUT
    openPin7 7 rfl).2.2).1

/-- C10: `SetFunc` with a label outside its switch returns an unsupported
function error, but only after having performed the lazy open: on an
unopened pin the failing call still opens the line (one `RequestLine`) and
leaves the handle in the Open state.  `In`, in contrast, rejects an
unsupported pull or edge before any hardware operation, leaving the state
unchanged with no effects. -/
theorem setfunc_unsupported_opens_first (env : Env) (s : PinState) (nm : String)
    (l : Nat) (h1 : s.line = none) (h2 : env.requestLine = some l)
    (h3 : env.watchOk = true) :
    ((SetFunc env (Func.other nm) s).1 = some (GoErr.unsupportedFunc (Func.other nm)) ∧
      (SetFunc env (Func.other nm) s).2.1.line = some l ∧
      countRequests (SetFunc env (Func.other nm) s).2.2 = 1) ∧
    (∀ (k : Nat) (edge : Edge) (s2 : PinState),
      In env (Pull.unknown k) edge s2 =
        (some (GoErr.unsupportedPull (Pull.unknown k)), s2, [])) ∧
    (∀ (k : Nat) (pull : Pull) (cb : LineBias) (s2 : PinState),
      pullToBias pull = some cb →
      In env pull (Edge.unknown k) s2 =
        (some (GoErr.unsupportedEdge (Edge.unknown k)), s2, [])) := by
  refine ⟨⟨?_, ?_, ?_⟩, ?_, ?_⟩
  · simp [SetFunc, initPin, h1, h2, h3]
  · simp [SetFunc, initPin, h1, h2, h3]
  · simp [SetFunc, initPin, h1, h2, h3, countRequests_requestLine,
      countRequests_watchInfo, countRequests_logDebug, countRequests_nil]
  · intro k edge s2
    simp [In, pullToBias]
  · intro k pull cb s2 hp
    simp [In, hp, edgeToNative]

/-- C10 witness: evaluating `setfunc_unsupported_opens_first` concretely. -/
theorem setfunc_unsupported_opens_first_witness :
    (SetFunc envAllOk strangeFunc closedPin).2.1.line = some 1 :=
  ((setfunc_unsupported_opens_first envAllOk closedPin strangeFuncName 1
    rfl rfl rfl).1).2.1

end GpioDriver
